import Mathlib

/-!
Verification development for SraMetaGo (src/main.go): a shallow embedding of
the batch fetch-retry-aggregate pipeline and the record extraction / TSV
serialization logic, together with theorems settling the specified properties.
-/

namespace SraMetaGo

/- ===== Data model, from the struct declarations in src/main.go ===== -/

/-- SampleAttribute: a TAG/VALUE metadata pair of a sample. -/
structure SampleAttribute where
  Tag : String
  Value : String
deriving DecidableEq

/-- Identifier: an external ID of a sample, with its namespace attribute. -/
structure Identifier where
  Namespace : String
  Value : String
deriving DecidableEq

/-- externalID: an EXTERNAL_ID node under STUDY_REF>IDENTIFIERS. -/
structure externalID where
  Namespace : String
  Value : String
deriving DecidableEq

/-- studyRef: the list of EXTERNAL_ID elements under STUDY_REF>IDENTIFIERS. -/
structure studyRef where
  ExternalIDs : List externalID
deriving DecidableEq

/-- LibraryDescriptor: library preparation information. -/
structure LibraryDescriptor where
  Strategy : String
  Source : String
  Selection : String
deriving DecidableEq

/-- Experiment: experiment-level metadata. The BioProject field is not decoded
directly from XML; Experiment.UnmarshalXML derives it from Study (see
`experimentBioProject` below). -/
structure Experiment where
  Accession : String
  Title : String
  Library : LibraryDescriptor
  Study : studyRef
  BioProject : String
deriving DecidableEq

/-- Sample: sample-level metadata. -/
structure Sample where
  Accession : String
  Identifiers : List Identifier
  Attributes : List SampleAttribute
  Title : String
deriving DecidableEq

/-- Run: one sequencing run. -/
structure Run where
  Accession : String
  TotalSpots : String
  TotalBases : String
  LoadDate : String
  ReleaseDate : String
deriving DecidableEq

/-- RunSet: the collection of runs of a package. -/
structure RunSet where
  Runs : List Run
deriving DecidableEq

/-- Platform: the sequencing platform (instrument model). -/
structure Platform where
  Instrument : String
deriving DecidableEq

/-- Organization: the submitting organization. Go's `Type` field is spelled
`Type'` here because `Type` is reserved in Lean. -/
structure Organization where
  Name : String
  Type' : String
deriving DecidableEq

/-- ExperimentPackage: one archived record. -/
structure ExperimentPackage where
  Experiment : Experiment
  Sample : Sample
  RunSet : RunSet
  Platform : Platform
  Organization : Organization
  ReleaseDate : String
  LoadDate : String
deriving DecidableEq

/-- ExperimentPackageSet: the decoded result of fetching one batch. -/
structure ExperimentPackageSet where
  Packages : List ExperimentPackage
deriving DecidableEq

/- ===== Extraction helpers (extractSampleValue / extractIdentifier and the
custom Experiment.UnmarshalXML logic) ===== -/

/-- Models the character class of Go's `unicode.IsSpace` on the Latin-1 range
(the range relevant to trimming of the archive's identifier values). -/
def goIsSpace (c : Char) : Bool :=
  c == ' ' || c == '\t' || c == '\n' || c == '\x0b' || c == '\x0c' || c == '\r' ||
  c == '\u0085' || c == ' '

/-- Models Go's `strings.TrimSpace`: removes leading and trailing whitespace. -/
def trimSpace (s : String) : String :=
  ⟨((s.data.dropWhile goIsSpace).reverse.dropWhile goIsSpace).reverse⟩

/-- ASCII lower-casing of one character. -/
def asciiToLower (c : Char) : Char :=
  if 'A' ≤ c ∧ c ≤ 'Z' then Char.ofNat (c.toNat + 32) else c

/-- Models Go's `strings.EqualFold` (case-insensitive equality); the model
folds ASCII letters, which is exact for every lookup key the program uses. -/
def eqFold (a b : String) : Bool :=
  a.data.map asciiToLower == b.data.map asciiToLower

/-- extractSampleValue from src/main.go: returns the Value of the first
attribute whose Tag matches `key` under EqualFold, else the empty string. -/
def extractSampleValue : List SampleAttribute → String → String
  | [], _ => ""
  | attr :: rest, key =>
    if eqFold attr.Tag key then attr.Value else extractSampleValue rest key

/-- extractIdentifier from src/main.go: returns the Value of the first
identifier whose Namespace equals `ns` exactly, else the empty string. -/
def extractIdentifier : List Identifier → String → String
  | [], _ => ""
  | i :: rest, ns =>
    if i.Namespace == ns then i.Value else extractIdentifier rest ns

/-- The loop of Experiment.UnmarshalXML: scans STUDY_REF>IDENTIFIERS>EXTERNAL_ID
for the first entry with namespace "BioProject" and stores the TrimSpace of its
inner text; the field stays empty when no namespace matches. -/
def experimentBioProject : List externalID → String
  | [] => ""
  | ex :: rest =>
    if ex.Namespace == "BioProject" then trimSpace ex.Value
    else experimentBioProject rest

/- ===== writePackage (record extraction + serialization) ===== -/

/-- The bioproject fallback chain of writePackage: the Experiment-level value,
then the Sample external identifier of namespace "BioProject", then the Sample
attribute "bioproject". -/
def resolveBioProject (pkg : ExperimentPackage) : String :=
  let bioproject := pkg.Experiment.BioProject
  if bioproject == "" then
    let b := extractIdentifier pkg.Sample.Identifiers "BioProject"
    if b == "" then extractSampleValue pkg.Sample.Attributes "bioproject" else b
  else bioproject

/-- The submitter fallback chain of writePackage: Organization name, then the
sample attributes "submitter", "submitted_by", "center_name". -/
def resolveSubmitter (pkg : ExperimentPackage) : String :=
  let s := pkg.Organization.Name
  if s == "" then
    let s1 := extractSampleValue pkg.Sample.Attributes "submitter"
    if s1 == "" then
      let s2 := extractSampleValue pkg.Sample.Attributes "submitted_by"
      if s2 == "" then extractSampleValue pkg.Sample.Attributes "center_name"
      else s2
    else s1
  else s

/-- Per-run release date: the run's own `published` attribute, falling back to
the package-level ReleaseDate when the run's is empty. -/
def runReleaseDate (pkg : ExperimentPackage) (run : Run) : String :=
  if run.ReleaseDate == "" then pkg.ReleaseDate else run.ReleaseDate

/-- Per-run load date: the run's own attribute, falling back to the
package-level LoadDate when the run's is empty. -/
def runLoadDate (pkg : ExperimentPackage) (run : Run) : String :=
  if run.LoadDate == "" then pkg.LoadDate else run.LoadDate

/-- The ten column values of one output row, in the order of writePackage's
Fprintf format string. -/
def rowFields (pkg : ExperimentPackage) (run : Run) : List String :=
  [run.Accession,
   resolveBioProject pkg,
   extractIdentifier pkg.Sample.Identifiers "BioSample",
   resolveSubmitter pkg,
   extractSampleValue pkg.Sample.Attributes "collection_date",
   extractSampleValue pkg.Sample.Attributes "geo_loc_name",
   extractSampleValue pkg.Sample.Attributes "ww_population",
   run.TotalSpots,
   runReleaseDate pkg run,
   runLoadDate pkg run]

/-- The Sample/Experiment-derived columns shared by every row of one package
(BioProject, BioSample, Submitter, CollectionDate, Location, Population). -/
def sharedFields (pkg : ExperimentPackage) : List String :=
  [resolveBioProject pkg,
   extractIdentifier pkg.Sample.Identifiers "BioSample",
   resolveSubmitter pkg,
   extractSampleValue pkg.Sample.Attributes "collection_date",
   extractSampleValue pkg.Sample.Attributes "geo_loc_name",
   extractSampleValue pkg.Sample.Attributes "ww_population"]

/-- Joins column values with tab separators, as the `%s\t...%s` format does. -/
def tabJoin : List String → String
  | [] => ""
  | [x] => x
  | x :: rest => x ++ "\t" ++ tabJoin rest

/-- The text of one output line: tab-joined fields plus the trailing newline. -/
def rowLine (pkg : ExperimentPackage) (run : Run) : String :=
  tabJoin (rowFields pkg run) ++ "\n"

/-- writePackage from src/main.go, as the list of lines it writes to the TSV
stream: one line per run of the package. -/
def writePackage (pkg : ExperimentPackage) : List String :=
  pkg.RunSet.Runs.map (rowLine pkg)

/-- The fixed header line written once before any row. -/
def headerLine : String :=
  "RunAccession\tBioProject\tBioSample\tSubmitter\tCollectionDate\tLocation\tPopulation\tTotalSpots\tReleaseDate\tLoadDate\n"

/-- The drain loop of main: for every aggregated package set, every package is
written in order. Result: the row lines appended to the stream. -/
def drainOutput (sets : List ExperimentPackageSet) : List String :=
  (sets.map (fun s => (s.Packages.map writePackage).flatten)).flatten

/-- The whole TSV stream: the header line followed by the drained rows. -/
def fullOutput (sets : List ExperimentPackageSet) : List String :=
  headerLine :: drainOutput sets

/- ===== chunkIDs (the Batcher) ===== -/

/-- chunkIDs from src/main.go: while size < len(ids), the first size elements
are appended as a chunk and removed; the remainder is appended as the final
chunk. The Go loop never terminates for size ≤ 0 with a nonempty list, so the
model adds the guard 0 < size; every claim assumes a positive chunk size. -/
def chunkIDs (ids : List String) (size : Nat) : List (List String) :=
  if h : 0 < size ∧ size < ids.length then
    ids.take size :: chunkIDs (ids.drop size) size
  else [ids]
termination_by ids.length
decreasing_by
  rw [List.length_drop]
  omega

/- ===== Worker / pipeline model ===== -/

/-- Configured batch size (const batchSize in src/main.go). -/
def batchSize : Nat := 100

/-- Configured concurrency bound (const maxWorkers in src/main.go). -/
def maxWorkers : Nat := 10

/-- Configured retry budget (const maxRetries in main). -/
def maxRetries : Nat := 7

/-- The externally observable effects of one fetch-retry worker goroutine:
what it sent on the results channel, how much it added to the shared completed
counter, how many fetch attempts it made, the backoff sleeps it performed (in
seconds, in order), and the failure warning it printed to stderr. -/
structure WorkerResult where
  deposited : Option ExperimentPackageSet
  completedDelta : Nat
  attemptsMade : Nat
  sleeps : List Nat
  warning : Option String
deriving DecidableEq

/-- The retry loop of the worker goroutine in main, from loop index `attempt`
with `remaining = maxRetries - attempt` iterations left (so `0 < remaining`
is the loop guard `attempt < maxRetries`). Each iteration with attempt > 0
first sleeps 2^attempt seconds; a successful fetch deposits the package set,
increments the completed counter once and returns; exhausting the budget
leaves a warning carrying the last observed error. The per-attempt outcome is
supplied by `fetch`. -/
def runAttemptsFrom (fetch : Nat → Except String ExperimentPackageSet) :
    Nat → Nat → WorkerResult
  | 0, _ =>
    { deposited := none, completedDelta := 0, attemptsMade := 0,
      sleeps := [], warning := none }
  | remaining + 1, attempt =>
    let sl : List Nat := if 0 < attempt then [2 ^ attempt] else []
    match fetch attempt with
    | Except.ok pkgSet =>
      { deposited := some pkgSet, completedDelta := 1, attemptsMade := 1,
        sleeps := sl, warning := none }
    | Except.error e =>
      let rest := runAttemptsFrom fetch remaining (attempt + 1)
      { deposited := rest.deposited,
        completedDelta := rest.completedDelta,
        attemptsMade := rest.attemptsMade + 1,
        sleeps := sl ++ rest.sleeps,
        warning :=
          if rest.deposited.isSome then none
          else some (rest.warning.getD e) }

/-- One whole worker goroutine: the retry loop started at attempt 0 with the
full budget. -/
def runWorker (fetch : Nat → Except String ExperimentPackageSet) : WorkerResult :=
  runAttemptsFrom fetch maxRetries 0

/-- The value of the shared completed counter after every worker has
terminated: the sum of the increments of all workers. -/
def totalCompleted (fetches : List (Nat → Except String ExperimentPackageSet)) : Nat :=
  (fetches.map (fun f => (runWorker f).completedDelta)).sum

/-- The package sets aggregated on the results channel once all workers are
done (channel order is immaterial to the claims; one admissible order). -/
def collectedResults (fetches : List (Nat → Except String ExperimentPackageSet)) :
    List ExperimentPackageSet :=
  fetches.filterMap (fun f => (runWorker f).deposited)

/- ===== Progress monitor model ===== -/

/-- The monitor goroutine of main, as a function of the successive values it
reads from the completed counter: starting from `last`, a read `done` is
forwarded to pb.SetProgress exactly when done > last, and `last` is updated to
the forwarded value. Returns the forwarded values in order. -/
def deliverUpdates : Nat → List Nat → List Nat
  | _, [] => []
  | last, done :: rest =>
    if last < done then done :: deliverUpdates done rest
    else deliverUpdates last rest

/- ===== Semaphore (concurrency controller) model ===== -/

/-- State of the slot pool: `tokens` is the number of empty-struct values
buffered in the `sem` channel, `running` the number of worker goroutines that
have been spawned and have not yet executed their deferred receive. -/
structure PoolState where
  tokens : Nat
  running : Nat
deriving DecidableEq

/-- Transitions of the dispatch loop and the workers. `dispatch` is main's
`sem <- struct{}{}` immediately followed by `go func(...)`: the send blocks
unless fewer than maxWorkers tokens are buffered. `finish` is a worker's
deferred `<-sem` on termination (success or permanent failure). -/
inductive PoolStep : PoolState → PoolState → Prop
  | dispatch (s : PoolState) (h : s.tokens < maxWorkers) :
      PoolStep s ⟨s.tokens + 1, s.running + 1⟩
  | finish (s : PoolState) (h : 0 < s.running) :
      PoolStep s ⟨s.tokens - 1, s.running - 1⟩

/-- Pool states reachable from the initial state (empty channel, no worker). -/
inductive PoolReachable : PoolState → Prop
  | init : PoolReachable ⟨0, 0⟩
  | step {s s' : PoolState} : PoolReachable s → PoolStep s s' → PoolReachable s'

/- ===== Concrete fixtures used by witnesses and counterexamples ===== -/

/-- A fetch behavior that fails on every attempt with the same message. -/
def alwaysFail : Nat → Except String ExperimentPackageSet :=
  fun _ => Except.error "network error"

/-- A fetch behavior that succeeds immediately with an empty package set. -/
def okFetch : Nat → Except String ExperimentPackageSet :=
  fun _ => Except.ok ⟨[]⟩

/-- The package of the end-to-end example: one run SRR000001, an
Experiment-level BioProject identifier PRJNA000, a Sample BioSample identifier
SAMN000, Organization "ACME Lab", sample attribute collection_date=2024-01-01,
all other optional fields absent. -/
def examplePackage : ExperimentPackage :=
  { Experiment :=
      { Accession := "", Title := "",
        Library := { Strategy := "", Source := "", Selection := "" },
        Study := { ExternalIDs := [{ Namespace := "BioProject", Value := "PRJNA000" }] },
        BioProject := "PRJNA000" },
    Sample :=
      { Accession := "",
        Identifiers := [{ Namespace := "BioSample", Value := "SAMN000" }],
        Attributes := [{ Tag := "collection_date", Value := "2024-01-01" }],
        Title := "" },
    RunSet :=
      { Runs := [{ Accession := "SRR000001", TotalSpots := "", TotalBases := "",
                   LoadDate := "", ReleaseDate := "" }] },
    Platform := { Instrument := "" },
    Organization := { Name := "ACME Lab", Type' := "" },
    ReleaseDate := "", LoadDate := "" }

/-- The first non-empty value of an ordered candidate list. Modelled from the
spec's words for the fallback chain ("consulted until one yields a non-empty
value", "stopping at the first non-empty result"); compared against the code's
`resolveBioProject` in the C4 theorem. -/
def firstNonEmpty : List String → String
  | [] => ""
  | s :: rest => if s == "" then firstNonEmpty rest else s

/- ===== Helper lemmas ===== -/

theorem chunkIDs_ne_nil (ids : List String) (size : Nat) : chunkIDs ids size ≠ [] := by
  rw [chunkIDs]
  split
  · simp
  · simp

theorem chunkIDs_flatten (ids : List String) (size : Nat) (hs : 0 < size) :
    (chunkIDs ids size).flatten = ids := by
  induction ids, size using chunkIDs.induct with
  | case1 ids size h ih =>
    rw [chunkIDs, dif_pos h, List.flatten_cons, ih hs, List.take_append_drop]
  | case2 ids size h =>
    rw [chunkIDs, dif_neg h]
    simp

theorem chunkIDs_length (ids : List String) (size : Nat) (hs : 0 < size)
    (hne : ids ≠ []) : (chunkIDs ids size).length = (ids.length + size - 1) / size := by
  induction ids, size using chunkIDs.induct with
  | case1 ids size h ih =>
    have hdrop : List.drop size ids ≠ [] := by
      intro hcon
      rw [List.drop_eq_nil_iff] at hcon
      omega
    rw [chunkIDs, dif_pos h, List.length_cons, ih hs hdrop, List.length_drop]
    have e1 : ids.length - size + size - 1 = ids.length - 1 := by omega
    have e2 : ids.length + size - 1 = ids.length - 1 + size := by omega
    rw [e1, e2, Nat.add_div_right _ hs]
  | case2 ids size h =>
    rw [chunkIDs, dif_neg h, List.length_singleton]
    have hlen : 1 ≤ ids.length := by
      rcases ids with _ | ⟨a, t⟩
      · exact absurd rfl hne
      · simp
    have hle : ids.length ≤ size := by omega
    exact (Nat.div_eq_of_lt_le (by omega) (by omega)).symm

theorem chunkIDs_dropLast_length (ids : List String) (size : Nat) :
    ∀ c ∈ (chunkIDs ids size).dropLast, c.length = size := by
  induction ids, size using chunkIDs.induct with
  | case1 ids size h ih =>
    intro c hc
    rw [chunkIDs, dif_pos h] at hc
    obtain ⟨a, t, he⟩ := List.exists_cons_of_ne_nil (chunkIDs_ne_nil (ids.drop size) size)
    rw [he, List.dropLast_cons₂, List.mem_cons] at hc
    rcases hc with rfl | hc
    · rw [List.length_take]
      omega
    · exact ih c (by rw [he]; exact hc)
  | case2 ids size h =>
    intro c hc
    rw [chunkIDs, dif_neg h] at hc
    simp at hc

theorem extractSampleValue_eq_find (attrs : List SampleAttribute) (key : String) :
    extractSampleValue attrs key =
      ((attrs.find? (fun a => eqFold a.Tag key)).map SampleAttribute.Value).getD "" := by
  induction attrs with
  | nil => rfl
  | cons a rest ih =>
    cases h : eqFold a.Tag key with
    | true =>
      rw [@List.find?_cons_of_pos _ (fun x => eqFold x.Tag key) a rest (by simpa using h)]
      simp [extractSampleValue, h]
    | false =>
      rw [@List.find?_cons_of_neg _ (fun x => eqFold x.Tag key) a rest (by simp [h])]
      rw [← ih]
      simp [extractSampleValue, h]

theorem extractIdentifier_eq_find (ids : List Identifier) (ns : String) :
    extractIdentifier ids ns =
      ((ids.find? (fun i => i.Namespace == ns)).map Identifier.Value).getD "" := by
  induction ids with
  | nil => rfl
  | cons i rest ih =>
    cases h : i.Namespace == ns with
    | true =>
      rw [@List.find?_cons_of_pos _ (fun x => x.Namespace == ns) i rest (by simpa using h)]
      simp [extractIdentifier, h]
    | false =>
      rw [@List.find?_cons_of_neg _ (fun x => x.Namespace == ns) i rest (by simp [h])]
      rw [← ih]
      simp [extractIdentifier, h]

theorem runAttemptsFrom_delta (f : Nat → Except String ExperimentPackageSet) :
    ∀ r a, (runAttemptsFrom f r a).completedDelta =
      if (runAttemptsFrom f r a).deposited.isSome then 1 else 0 := by
  intro r
  induction r with
  | zero => intro a; rfl
  | succ r ih =>
    intro a
    cases hf : f a with
    | ok s => simp [runAttemptsFrom, hf]
    | error e =>
      simp only [runAttemptsFrom, hf]
      simpa using ih (a + 1)

theorem runWorker_delta (f : Nat → Except String ExperimentPackageSet) :
    (runWorker f).completedDelta = if (runWorker f).deposited.isSome then 1 else 0 :=
  runAttemptsFrom_delta f maxRetries 0

theorem runAttemptsFrom_sleeps (f : Nat → Except String ExperimentPackageSet) :
    ∀ r a i, 1 ≤ a → i < (runAttemptsFrom f r a).attemptsMade →
      (runAttemptsFrom f r a).sleeps[i]? = some (2 ^ (a + i)) := by
  intro r
  induction r with
  | zero =>
    intro a i ha hi
    simp [runAttemptsFrom] at hi
  | succ r ih =>
    intro a i ha hi
    cases hf : f a with
    | ok s =>
      simp only [runAttemptsFrom, hf] at hi ⊢
      have : i = 0 := by omega
      subst this
      rw [if_pos (by omega : 0 < a)]
      rfl
    | error e =>
      simp only [runAttemptsFrom, hf] at hi ⊢
      rw [if_pos (by omega : 0 < a)]
      rcases i with _ | j
      · simp [List.singleton_append]
      · simp only [List.singleton_append, List.getElem?_cons_succ]
        have hj : j < (runAttemptsFrom f r (a + 1)).attemptsMade := by omega
        have hrec := ih (a + 1) j (by omega) hj
        rw [hrec, show a + 1 + j = a + (j + 1) by omega]

theorem runAttemptsFrom_allFail (f : Nat → Except String ExperimentPackageSet)
    (errs : Nat → String) (hf : ∀ i, f i = Except.error (errs i)) :
    ∀ r a, (runAttemptsFrom f r a).deposited = none ∧
      (runAttemptsFrom f r a).completedDelta = 0 ∧
      (runAttemptsFrom f r a).attemptsMade = r ∧
      (runAttemptsFrom f r a).warning =
        (if r = 0 then none else some (errs (a + r - 1))) := by
  intro r
  induction r with
  | zero => intro a; exact ⟨rfl, rfl, rfl, rfl⟩
  | succ r ih =>
    intro a
    obtain ⟨d, c, m, w⟩ := ih (a + 1)
    simp only [runAttemptsFrom, hf a]
    refine ⟨d, c, by rw [m], ?_⟩
    rw [d, w]
    rcases r with _ | k
    · simp
    · simp only [Option.isSome_none, Bool.false_eq_true, if_false, Nat.succ_ne_zero,
        Option.getD_some]
      congr 2
      omega

theorem deliverUpdates_mem :
    ∀ (obs : List Nat) (last x : Nat), x ∈ deliverUpdates last obs → last < x ∧ x ∈ obs := by
  intro obs
  induction obs with
  | nil =>
    intro last x hx
    simp [deliverUpdates] at hx
  | cons d rest ih =>
    intro last x hx
    simp only [deliverUpdates] at hx
    by_cases h : last < d
    · rw [if_pos h] at hx
      rcases List.mem_cons.mp hx with rfl | hx
      · exact ⟨h, List.mem_cons_self _ _⟩
      · obtain ⟨h1, h2⟩ := ih d x hx
        exact ⟨lt_trans h h1, List.mem_cons_of_mem _ h2⟩
    · rw [if_neg h] at hx
      obtain ⟨h1, h2⟩ := ih last x hx
      exact ⟨h1, List.mem_cons_of_mem _ h2⟩

theorem deliverUpdates_chain :
    ∀ (obs : List Nat) (last : Nat), (deliverUpdates last obs).Chain' (· < ·) := by
  intro obs
  induction obs with
  | nil => intro last; simp [deliverUpdates]
  | cons d rest ih =>
    intro last
    simp only [deliverUpdates]
    by_cases h : last < d
    · rw [if_pos h, List.chain'_cons']
      refine ⟨fun y hy => ?_, ih d⟩
      exact (deliverUpdates_mem rest d y (List.mem_of_mem_head? hy)).1
    · rw [if_neg h]
      exact ih last

theorem deliverUpdates_getLast :
    ∀ (obs : List Nat) (last : Nat),
      (deliverUpdates last obs).getLast?.getD last = obs.foldl max last := by
  intro obs
  induction obs with
  | nil => intro last; rfl
  | cons d rest ih =>
    intro last
    simp only [deliverUpdates, List.foldl_cons]
    by_cases h : last < d
    · rw [if_pos h]
      have step : (d :: deliverUpdates d rest).getLast?.getD last =
          (deliverUpdates d rest).getLast?.getD d := by
        cases hD : deliverUpdates d rest with
        | nil => simp
        | cons e t =>
          rw [List.getLast?_cons_cons, List.getLast?_eq_getLast (e :: t) (by simp)]
          simp
      rw [step, ih d, max_eq_right (le_of_lt h)]
    · rw [if_neg h, ih last, max_eq_left (le_of_not_lt h)]

theorem foldl_max_getLast :
    ∀ (l : List Nat) (a : Nat), l.Pairwise (· ≤ ·) → l.foldl max a = max a (l.getLast?.getD a) := by
  intro l
  induction l with
  | nil => intro a _; simp
  | cons b t ih =>
    intro a hp
    rw [List.pairwise_cons] at hp
    rw [List.foldl_cons, ih (max a b) hp.2]
    cases t with
    | nil => simp
    | cons e t' =>
      rw [List.getLast?_cons_cons]
      have hne : (e :: t') ≠ [] := by simp
      rw [List.getLast?_eq_getLast (e :: t') hne]
      have hb : b ≤ (e :: t').getLast hne := hp.1 _ (List.getLast_mem hne)
      simp only [Option.getD_some]
      omega

/- ===== Claim theorems ===== -/

/-- C1 (amended): the shared completed counter is incremented exactly once per
successfully fetched Batch and never for a permanently failed one, so once
every worker has terminated the counter equals the number of successful
Batches, which is at most (not necessarily equal to) the total Batch count. -/
theorem completed_counts_successes
    (fetches : List (Nat → Except String ExperimentPackageSet)) :
    totalCompleted fetches = (collectedResults fetches).length ∧
    totalCompleted fetches ≤ fetches.length := by
  induction fetches with
  | nil => exact ⟨rfl, le_refl 0⟩
  | cons f rest ih =>
    have hd := runWorker_delta f
    constructor
    · simp only [totalCompleted, collectedResults, List.map_cons, List.sum_cons,
        List.filterMap_cons] at *
      cases hdep : (runWorker f).deposited with
      | none =>
        rw [hdep] at hd
        simp only [Option.isSome_none, Bool.false_eq_true, if_false] at hd
        simp only [hdep, hd]
        rw [ih.1]
        omega
      | some s =>
        rw [hdep] at hd
        simp only [Option.isSome_some, if_true] at hd
        simp only [hdep, hd]
        rw [List.length_cons, ih.1]
        omega
    · simp only [totalCompleted, List.map_cons, List.sum_cons, List.length_cons] at *
      have h1 : (runWorker f).completedDelta ≤ 1 := by
        rw [hd]
        split <;> omega
      have h2 := ih.2
      omega

/-- C1 witness: a run with one succeeding and one failing Batch ends with the
counter at the number of aggregated results. -/
theorem completed_counts_successes_witness :
    totalCompleted [okFetch, alwaysFail] = (collectedResults [okFetch, alwaysFail]).length ∧
    totalCompleted [okFetch, alwaysFail] ≤
      ([okFetch, alwaysFail] : List (Nat → Except String ExperimentPackageSet)).length :=
  completed_counts_successes [okFetch, alwaysFail]

/-- C1 counterexample: a run with a single Batch whose fetch permanently fails
terminates with the completed counter at 0, not at the total Batch count 1, so
the counter is not incremented once per Batch regardless of outcome. -/
theorem completed_failed_batch_counterexample :
    totalCompleted [alwaysFail] = 0 ∧
    ([alwaysFail] : List (Nat → Except String ExperimentPackageSet)).length = 1 ∧
    (0 : Nat) ≠ 1 := by
  refine ⟨by decide, rfl, by decide⟩

/-- C2 (amended): the progress values forwarded to the external display form a
strictly increasing (hence non-decreasing) sequence, every forwarded value is
bounded by the total batch count bounding the counter, and the final forwarded
value equals the final counter value, i.e. the number of successful Batches —
which equals the total Batch count only when no Batch permanently fails. -/
theorem progress_updates (fetches : List (Nat → Except String ExperimentPackageSet))
    (total : Nat) (obs : List Nat)
    (hmono : obs.Chain' (· ≤ ·))
    (hbound : ∀ x ∈ obs, x ≤ total)
    (hlast : obs.getLast? = some (totalCompleted fetches)) :
    (deliverUpdates 0 obs).Chain' (· < ·) ∧
    (∀ x ∈ deliverUpdates 0 obs, x ≤ total) ∧
    (deliverUpdates 0 obs).getLast?.getD 0 = totalCompleted fetches := by
  refine ⟨deliverUpdates_chain obs 0, ?_, ?_⟩
  · intro x hx
    exact hbound x (deliverUpdates_mem obs 0 x hx).2
  · rw [deliverUpdates_getLast obs 0]
    have hp : obs.Pairwise (· ≤ ·) := List.chain'_iff_pairwise.mp hmono
    rw [foldl_max_getLast obs 0 hp, hlast]
    simp

/-- C2 witness: a two-poll observation of a one-batch all-successful run. -/
theorem progress_updates_witness :
    ([0, 1] : List Nat).Chain' (· ≤ ·) ∧
    ((deliverUpdates 0 [0, 1]).Chain' (· < ·) ∧
     (∀ x ∈ deliverUpdates 0 [0, 1], x ≤ 1) ∧
     (deliverUpdates 0 [0, 1]).getLast?.getD 0 = totalCompleted [okFetch]) :=
  ⟨by simp, progress_updates [okFetch] 1 [0, 1] (by simp) (by decide) (by decide)⟩

/-- C2 counterexample: in a two-Batch run where one Batch permanently fails,
the counter ends at 1, the monitor forwards [1], and the final forwarded value
is 1, not the total batch count 2. -/
theorem progress_final_counterexample :
    totalCompleted [okFetch, alwaysFail] = 1 ∧
    ([okFetch, alwaysFail] : List (Nat → Except String ExperimentPackageSet)).length = 2 ∧
    deliverUpdates 0 [0, 1, 1] = [1] ∧
    (deliverUpdates 0 [0, 1, 1]).getLast?.getD 0 ≠ 2 := by
  refine ⟨by decide, rfl, by decide, by decide⟩

/-- C3 (amended): for every chunk size S > 0, the concatenation of the chunks
equals the input, every chunk but the last has length exactly S, and for a
nonempty input exactly ⌈N/S⌉ chunks are produced; the empty input instead
yields one empty chunk (not zero chunks). -/
theorem chunkIDs_spec (ids : List String) (size : Nat) (hs : 0 < size) :
    (chunkIDs ids size).flatten = ids ∧
    (∀ c ∈ (chunkIDs ids size).dropLast, c.length = size) ∧
    (ids ≠ [] → (chunkIDs ids size).length = (ids.length + size - 1) / size) ∧
    (ids = [] → chunkIDs ids size = [[]]) := by
  refine ⟨chunkIDs_flatten ids size hs, chunkIDs_dropLast_length ids size, ?_, ?_⟩
  · intro hne
    exact chunkIDs_length ids size hs hne
  · intro he
    subst he
    rw [chunkIDs, dif_neg (by simp)]

/-- C3 witness: three identifiers in chunks of two give chunks of sizes 2,1. -/
theorem chunkIDs_spec_witness :
    0 < 2 ∧
    ((chunkIDs ["a", "b", "c"] 2).flatten = ["a", "b", "c"] ∧
     (∀ c ∈ (chunkIDs ["a", "b", "c"] 2).dropLast, c.length = 2) ∧
     ((["a", "b", "c"] : List String) ≠ [] →
       (chunkIDs ["a", "b", "c"] 2).length = ((["a", "b", "c"] : List String).length + 2 - 1) / 2) ∧
     ((["a", "b", "c"] : List String) = [] → chunkIDs ["a", "b", "c"] 2 = [[]])) :=
  ⟨by decide, chunkIDs_spec ["a", "b", "c"] 2 (by decide)⟩

/-- C3 counterexample: on the empty identifier sequence with chunk size 1 the
Batcher returns one (empty) batch, not ⌈0/1⌉ = 0 batches. -/
theorem chunkIDs_empty_counterexample :
    (chunkIDs [] 1).length ≠ ((List.length ([] : List String)) + 1 - 1) / 1 := by
  rw [chunkIDs, dif_neg (by simp)]
  simp

/-- C4: for a Package whose Experiment.BioProject field was filled in by the
decoder from its STUDY_REF identifiers, the resolved BioProject equals the
first non-empty candidate among the Experiment-level STUDY_REF BioProject
identifier, the Sample external identifier of namespace "BioProject", and the
Sample attribute "bioproject", in that order; in particular a non-empty
Experiment-level value always wins. -/
theorem bioproject_precedence (pkg : ExperimentPackage)
    (hdec : pkg.Experiment.BioProject =
      experimentBioProject pkg.Experiment.Study.ExternalIDs) :
    resolveBioProject pkg =
      firstNonEmpty [experimentBioProject pkg.Experiment.Study.ExternalIDs,
        extractIdentifier pkg.Sample.Identifiers "BioProject",
        extractSampleValue pkg.Sample.Attributes "bioproject"] ∧
    (pkg.Experiment.BioProject ≠ "" →
      resolveBioProject pkg = pkg.Experiment.BioProject) := by
  constructor
  · by_cases h1 : experimentBioProject pkg.Experiment.Study.ExternalIDs = "" <;>
      by_cases h2 : extractIdentifier pkg.Sample.Identifiers "BioProject" = "" <;>
      by_cases h3 : extractSampleValue pkg.Sample.Attributes "bioproject" = "" <;>
      simp [resolveBioProject, firstNonEmpty, hdec, h1, h2, h3]
  · intro hne
    simp [resolveBioProject, hne]

/-- C4 witness: the end-to-end example package, whose Experiment-level value
PRJNA000 is present and wins. -/
theorem bioproject_precedence_witness :
    examplePackage.Experiment.BioProject =
      experimentBioProject examplePackage.Experiment.Study.ExternalIDs ∧
    (resolveBioProject examplePackage =
      firstNonEmpty [experimentBioProject examplePackage.Experiment.Study.ExternalIDs,
        extractIdentifier examplePackage.Sample.Identifiers "BioProject",
        extractSampleValue examplePackage.Sample.Attributes "bioproject"] ∧
     (examplePackage.Experiment.BioProject ≠ "" →
       resolveBioProject examplePackage = examplePackage.Experiment.BioProject)) :=
  ⟨by decide, bioproject_precedence examplePackage (by decide)⟩

/-- C5 (amended): on the end-to-end example package the program emits, after
the fixed header line, exactly one row whose ten tab-separated fields are
SRR000001, PRJNA000, SAMN000, ACME Lab, 2024-01-01 and five empty fields —
i.e. nine tab characters in total — followed by a newline. -/
theorem example_line :
    fullOutput [⟨[examplePackage]⟩] =
      [headerLine, "SRR000001\tPRJNA000\tSAMN000\tACME Lab\t2024-01-01\t\t\t\t\t\n"] ∧
    examplePackage.Experiment.BioProject =
      experimentBioProject examplePackage.Experiment.Study.ExternalIDs := by
  refine ⟨by decide, by decide⟩

/-- C5 counterexample: the line the claim demands carries six tab characters
after the date (ten tabs in total, as for eleven fields); the program's actual
line has only five there, so the claimed exact line is not what is emitted. -/
theorem example_line_counterexample :
    writePackage examplePackage ≠
      ["SRR000001\tPRJNA000\tSAMN000\tACME Lab\t2024-01-01\t\t\t\t\t\t\n"] := by
  decide

/-- C6 (amended): when 0-indexed attempt i fails and the budget is not
exhausted, the worker waits exactly 2^(i+1) time units before attempt i+1 (the
i-th backoff sleep, 0-indexed, is 2^(i+1)): the first wait is 2, not 2^0 = 1,
and the waits double on each successive retry. -/
theorem backoff_doubles (f : Nat → Except String ExperimentPackageSet) (i : Nat)
    (h : i + 1 < (runWorker f).attemptsMade) :
    (runWorker f).sleeps[i]? = some (2 ^ (i + 1)) := by
  have key : ∀ r i, i + 1 < (runAttemptsFrom f (r + 1) 0).attemptsMade →
      (runAttemptsFrom f (r + 1) 0).sleeps[i]? = some (2 ^ (i + 1)) := by
    intro r i hlt
    cases hf : f 0 with
    | ok s =>
      simp only [runAttemptsFrom, hf] at hlt
      omega
    | error e =>
      simp only [runAttemptsFrom, hf] at hlt ⊢
      rw [if_neg (by omega), List.nil_append]
      have hrec := runAttemptsFrom_sleeps f r (0 + 1) i (by omega) (by omega)
      rw [hrec, show 0 + 1 + i = i + 1 by omega]
  exact key 6 i h

/-- C6 witness: for an always-failing fetch the first backoff is 2^1. -/
theorem backoff_doubles_witness :
    0 + 1 < (runWorker alwaysFail).attemptsMade ∧
    (runWorker alwaysFail).sleeps[0]? = some (2 ^ (0 + 1)) :=
  ⟨by decide, backoff_doubles alwaysFail 0 (by decide)⟩

/-- C6 counterexample: after 0-indexed attempt 0 fails, the worker waits 2
time units, not 2^0 = 1 as the claim states. -/
theorem backoff_first_wait_counterexample :
    (runWorker alwaysFail).sleeps[0]? = some 2 ∧ (2 : Nat) ≠ 2 ^ (0 : Nat) := by
  refine ⟨by decide, by decide⟩

/-- C7: a Batch whose fetch fails on every attempt is attempted exactly
maxRetries = 7 times and then dropped: nothing is deposited on the results
channel, the counter is not advanced, a warning carrying the last observed
error is printed, and the run continues — the other Batches' aggregated
results and drained output rows are exactly as if the failed Batch were
absent. -/
theorem retry_termination (fetch : Nat → Except String ExperimentPackageSet)
    (errs : Nat → String) (hf : ∀ i, fetch i = Except.error (errs i)) :
    (runWorker fetch).attemptsMade = maxRetries ∧
    maxRetries = 7 ∧
    (runWorker fetch).deposited = none ∧
    (runWorker fetch).completedDelta = 0 ∧
    (runWorker fetch).warning = some (errs (maxRetries - 1)) ∧
    (∀ others : List (Nat → Except String ExperimentPackageSet),
      collectedResults (fetch :: others) = collectedResults others ∧
      totalCompleted (fetch :: others) = totalCompleted others ∧
      drainOutput (collectedResults (fetch :: others)) =
        drainOutput (collectedResults others)) := by
  obtain ⟨d, c, m, w⟩ := runAttemptsFrom_allFail fetch errs hf maxRetries 0
  have d' : (runWorker fetch).deposited = none := d
  have c' : (runWorker fetch).completedDelta = 0 := c
  have m' : (runWorker fetch).attemptsMade = maxRetries := m
  have w' : (runWorker fetch).warning = some (errs (maxRetries - 1)) := by
    rw [show (runWorker fetch).warning = (runAttemptsFrom fetch maxRetries 0).warning
      from rfl, w]
    norm_num [maxRetries]
  have hcol : ∀ others : List (Nat → Except String ExperimentPackageSet),
      collectedResults (fetch :: others) = collectedResults others := by
    intro others
    simp [collectedResults, List.filterMap_cons, d']
  refine ⟨m', rfl, d', c', w', fun others => ⟨hcol others, ?_, by rw [hcol others]⟩⟩
  simp [totalCompleted, c']

/-- C7 witness: a concrete always-failing fetch next to one succeeding one. -/
theorem retry_termination_witness :
    (∀ i, alwaysFail i = Except.error "network error") ∧
    (runWorker alwaysFail).attemptsMade = maxRetries ∧
    collectedResults [alwaysFail, okFetch] = collectedResults [okFetch] :=
  ⟨fun _ => rfl,
   (retry_termination alwaysFail (fun _ => "network error") (fun _ => rfl)).1,
   ((retry_termination alwaysFail (fun _ => "network error")
      (fun _ => rfl)).2.2.2.2.2 [okFetch]).1⟩

/-- C8: a Package with K Runs produces exactly K rows, one per Run in order
and never discarding any; every row consists of the Run's accession, the six
Sample/Experiment-derived fields shared by all rows of the Package, and the
three Run-specific fields; two Runs agreeing on their Run-specific fields get
identical rows. -/
theorem row_fanout (pkg : ExperimentPackage) :
    (writePackage pkg).length = pkg.RunSet.Runs.length ∧
    (∀ i : Nat, (writePackage pkg)[i]? = (pkg.RunSet.Runs[i]?).map (rowLine pkg)) ∧
    (∀ run : Run, rowFields pkg run =
      run.Accession ::
        (sharedFields pkg ++ [run.TotalSpots, runReleaseDate pkg run, runLoadDate pkg run])) ∧
    (∀ run1 run2 : Run, run1.Accession = run2.Accession →
      run1.TotalSpots = run2.TotalSpots → run1.ReleaseDate = run2.ReleaseDate →
      run1.LoadDate = run2.LoadDate → rowLine pkg run1 = rowLine pkg run2) := by
  refine ⟨by simp [writePackage], ?_, fun run => rfl, ?_⟩
  · intro i
    simp [writePackage]
  · intro r1 r2 h1 h2 h3 h4
    simp [rowLine, rowFields, runReleaseDate, runLoadDate, h1, h2, h3, h4]

/-- C8 witness: the example package yields one row per run, and two runs that
differ only in TotalBases (a field not emitted) yield the same row. -/
theorem row_fanout_witness :
    (writePackage examplePackage).length = examplePackage.RunSet.Runs.length ∧
    rowLine examplePackage ⟨"SRR1", "7", "100", "", ""⟩ =
      rowLine examplePackage ⟨"SRR1", "7", "200", "", ""⟩ :=
  ⟨(row_fanout examplePackage).1,
   (row_fanout examplePackage).2.2.2 ⟨"SRR1", "7", "100", "", ""⟩
     ⟨"SRR1", "7", "200", "", ""⟩ rfl rfl rfl rfl⟩

/-- C9: in every reachable state of the slot-pool transition system modelling
the sem channel, the number of running workers (hence of workers concurrently
executing network fetches) is at most maxWorkers = 10. -/
theorem concurrency_bound (s : PoolState) (h : PoolReachable s) :
    s.running ≤ maxWorkers ∧ maxWorkers = 10 := by
  suffices hinv : s.running ≤ s.tokens ∧ s.tokens ≤ maxWorkers by
    exact ⟨le_trans hinv.1 hinv.2, rfl⟩
  induction h with
  | init => exact ⟨Nat.le_refl 0, by norm_num [maxWorkers]⟩
  | step hr hstep ih =>
    cases hstep with
    | dispatch hcap =>
      refine ⟨by simpa using Nat.succ_le_succ ih.1, ?_⟩
      simpa using hcap
    | finish hrun =>
      have h1 := ih.1
      have h2 := ih.2
      exact ⟨by simp; omega, by simp; omega⟩

/-- C9 witness: the initial state, with no worker running. -/
theorem concurrency_bound_witness :
    (PoolState.mk 0 0).running ≤ maxWorkers ∧ maxWorkers = 10 :=
  concurrency_bound (PoolState.mk 0 0) PoolReachable.init

/-- C10: extractSampleValue returns the value of the first attribute whose tag
equals the key under case-insensitive comparison (empty string when none
matches), so attribute lookups match tags of any letter-case and take the
first of duplicate tags, while extractIdentifier requires an exact
case-sensitive namespace match. -/
theorem lookup_semantics :
    (∀ (attrs : List SampleAttribute) (key : String), extractSampleValue attrs key =
      ((attrs.find? (fun a => eqFold a.Tag key)).map SampleAttribute.Value).getD "") ∧
    (∀ (ids : List Identifier) (ns : String), extractIdentifier ids ns =
      ((ids.find? (fun i => i.Namespace == ns)).map Identifier.Value).getD "") ∧
    extractSampleValue [⟨"BIOPROJECT", "P1"⟩] "bioproject" = "P1" ∧
    extractSampleValue [⟨"Collection_Date", "D1"⟩] "collection_date" = "D1" ∧
    extractSampleValue [⟨"SUBMITTER", "a"⟩, ⟨"submitter", "b"⟩] "submitter" = "a" ∧
    extractIdentifier [⟨"bioproject", "P1"⟩] "BioProject" = "" ∧
    extractIdentifier [⟨"BioProject", "P1"⟩] "BioProject" = "P1" :=
  ⟨extractSampleValue_eq_find, extractIdentifier_eq_find,
   by decide, by decide, by decide, by decide, by decide⟩

/-- C10 witness: the first-match characterization applied to one concrete
attribute list and key. -/
theorem lookup_semantics_witness :
    extractSampleValue [⟨"Tag1", "v"⟩] "tag1" =
      ((([(⟨"Tag1", "v"⟩ : SampleAttribute)].find? (fun a => eqFold a.Tag "tag1")).map
        SampleAttribute.Value).getD "") :=
  lookup_semantics.1 [⟨"Tag1", "v"⟩] "tag1"

end SraMetaGo
